import Mathlib

/-!
# mysql-check: a shallow embedding of `mysql-check.go`

The program is one HTTP handler (`application.check`) in front of a MySQL
server, plus configuration loading (`parseConfig`) and the construction of the
connection string in `main`.  The libraries it calls (`net/http`,
`database/sql`, `github.com/ghodss/yaml`) are modelled as far as the program
uses them.

The handler talks to three things outside the program: the database, the
`http.ResponseWriter` and two loggers.  The embedding passes them explicitly:

* the database is an environment `DbBehaviour` fixing what `sql.Open`,
  `db.Ping` and `row.Scan` answer;
* the response writer, the two log streams and the list of database
  operations performed live in a `World` that every function threads through.
-/

namespace MysqlCheck

/-! ## Go values -/

/-- A Go `error` value, observed through its `Error()` method. -/
structure GoError where
  msg : String
deriving DecidableEq, Repr

/-- Go `errors.New`. -/
def errorsNew (text : String) : GoError := ⟨text⟩

/-! ## net/http -/

/-- The `http.Header` map, as an association list in insertion order. -/
abbrev Header := List (String × String)

/-- Go `Header.Set`: replaces whatever values the key had. -/
def Header.set (h : Header) (k v : String) : Header :=
  h.filter (fun kv => kv.1 != k) ++ [(k, v)]

/-- An `http.ResponseWriter`: the header map, the status code once
`WriteHeader` has run (`none` before), and the bytes written to the body. -/
structure ResponseWriter where
  header : Header
  status : Option Nat
  body : String
deriving DecidableEq, Repr

/-- The writer the server hands to a handler. -/
def ResponseWriter.fresh : ResponseWriter := ⟨[], none, ""⟩

/-- Go `ResponseWriter.WriteHeader`: only the first call counts. -/
def ResponseWriter.WriteHeader (w : ResponseWriter) (code : Nat) : ResponseWriter :=
  match w.status with
  | some _ => w
  | none => { w with status := some code }

/-- Go `ResponseWriter.Write`: writes the header with 200 when none was written
yet, then appends to the body. -/
def ResponseWriter.Write (w : ResponseWriter) (data : String) : ResponseWriter :=
  let w1 := w.WriteHeader 200
  { w1 with body := w1.body ++ data }

/-- A response as the handler leaves it: status, header and the bytes
written to the body. -/
structure Response where
  status : Nat
  header : Header
  body : String
deriving DecidableEq, Repr

/-- The response the server sends once the handler has returned: a handler
that never wrote a header gets status 200. -/
def ResponseWriter.response (w : ResponseWriter) : Response :=
  { status := w.status.getD 200, header := w.header, body := w.body }

def StatusOK : Nat := 200
def StatusNotFound : Nat := 404
def StatusServiceUnavailable : Nat := 503

/-- Go `http.StatusText`, on the codes this program meets. -/
def StatusText (code : Nat) : String :=
  if code = 200 then "OK"
  else if code = 404 then "Not Found"
  else if code = 503 then "Service Unavailable"
  else ""

/-- Go `fmt.Fprintln(w, s)` for one string operand. -/
def Fprintln (w : ResponseWriter) (s : String) : ResponseWriter :=
  w.Write (s ++ "\n")

/-- Go `http.Error`: sets the two plain-text headers, writes the status code
and prints the message as a line of the body. -/
def httpError (w : ResponseWriter) (error : String) (code : Nat) : ResponseWriter :=
  let w1 := { w with header := Header.set w.header "Content-Type" "text/plain; charset=utf-8" }
  let w2 := { w1 with header := Header.set w1.header "X-Content-Type-Options" "nosniff" }
  Fprintln (w2.WriteHeader code) error

structure URL where
  Path : String
deriving DecidableEq, Repr

structure Request where
  Method : String
  URL : URL
deriving DecidableEq, Repr

/-! ## database/sql -/

/-- One call into `database/sql`. -/
inductive DbOp where
  | sqlOpen (driverName dataSourceName : String)
  | ping
  | queryRow (query : String)
  | close
deriving DecidableEq, Repr

/-- What the database answers during one request. -/
structure DbBehaviour where
  /-- `sql.Open(driverName, dataSourceName)`: `none` is success. -/
  openErr : String → String → Option GoError
  /-- `db.Ping()`: `none` is success. -/
  pingErr : Option GoError
  /-- `db.QueryRow(query).Scan(&s)` into an `int`. -/
  scan : String → Except GoError Int

/-! ## The program state -/

/-- Calls of the two responders of the handler. -/
inductive Call where
  | notFound
  | serverError (err : GoError)
deriving DecidableEq, Repr

/-- Everything a request can change.  `errorLog` and `infoLog` hold the
messages handed to the two `log.Logger`s, `dbOps` the database calls in
order, `liveConns` the number of handles opened and not closed, `calls`
the responder calls. -/
structure World where
  w : ResponseWriter
  errorLog : List String
  infoLog : List String
  dbOps : List DbOp
  liveConns : Nat
  calls : List Call
deriving DecidableEq, Repr

/-- The world at the start of a request. -/
def World.fresh : World := ⟨ResponseWriter.fresh, [], [], [], 0, []⟩

/-- Go `sql.Open`. -/
def sqlOpen (env : DbBehaviour) (driverName dataSourceName : String) (s : World) :
    Option GoError × World :=
  let s1 := { s with dbOps := s.dbOps ++ [DbOp.sqlOpen driverName dataSourceName] }
  match env.openErr driverName dataSourceName with
  | some err => (some err, s1)
  | none => (none, { s1 with liveConns := s1.liveConns + 1 })

/-- Go `db.Ping`. -/
def dbPing (env : DbBehaviour) (s : World) : Option GoError × World :=
  (env.pingErr, { s with dbOps := s.dbOps ++ [DbOp.ping] })

/-- Go `db.QueryRow(query)` followed by `row.Scan(&s)`. -/
def dbQueryRowScan (env : DbBehaviour) (query : String) (s : World) :
    Except GoError Int × World :=
  (env.scan query, { s with dbOps := s.dbOps ++ [DbOp.queryRow query] })

/-- Go `db.Close`. -/
def dbClose (s : World) : World :=
  { s with dbOps := s.dbOps ++ [DbOp.close], liveConns := s.liveConns - 1 }

/-! ## mysql-check.go -/

structure Config where
  MySQLAddress : String
  MySQLTimeout : String
  MySQLUserPassword : String
  HttpAddress : String
deriving DecidableEq, Repr

/-- The `application` struct.  Its two loggers are the `errorLog` and
`infoLog` streams of the `World`. -/
structure application where
  debug : Bool
  dsn : String
deriving DecidableEq, Repr

/-- `func (app *application) serverError(w http.ResponseWriter, err error)`. -/
def application.serverError (app : application) (err : GoError) (s : World) : World :=
  let s0 := { s with calls := s.calls ++ [Call.serverError err] }
  let s1 := if app.debug then { s0 with errorLog := s0.errorLog ++ [err.msg] } else s0
  { s1 with w := httpError s1.w (StatusText StatusServiceUnavailable) StatusServiceUnavailable }

/-- `http.NotFound(w, r)`. -/
def NotFound (_r : Request) (s : World) : World :=
  { s with calls := s.calls ++ [Call.notFound],
           w := httpError s.w "404 page not found" StatusNotFound }

/-- `func queryReadOnly(db *sql.DB) error`. -/
def queryReadOnly (env : DbBehaviour) (s : World) : Option GoError × World :=
  match dbQueryRowScan env "SELECT @@global.read_only;" s with
  | (Except.error err, s1) => (some err, s1)
  | (Except.ok v, s1) =>
    if v ≠ 0 then (some (errorsNew "mysql is read only"), s1)
    else (none, s1)

/-- The part of `check` that runs between `defer db.Close()` and the return. -/
def application.checkOpened (app : application) (env : DbBehaviour) (s : World) : World :=
  match dbPing env s with
  | (some err, s1) => app.serverError err s1
  | (none, s1) =>
    match queryReadOnly env s1 with
    | (some err, s2) => app.serverError err s2
    | (none, s2) =>
      if app.debug then { s2 with infoLog := s2.infoLog ++ ["check is ok"] } else s2

/-- `func (app *application) check(w http.ResponseWriter, r *http.Request)`.
The deferred `db.Close()` runs when the function returns, after every path
through `checkOpened`. -/
def application.check (app : application) (env : DbBehaviour) (r : Request) (s : World) : World :=
  if r.URL.Path ≠ "/" then NotFound r s
  else
    match sqlOpen env "mysql" app.dsn s with
    | (some err, s1) => app.serverError err s1
    | (none, s1) => dbClose (app.checkOpened env s1)

/-- The application value `main` builds from the flags and the loaded
configuration (the lines from `dsn := ...` to the `application` literal). -/
def mainApp (debug : Bool) (c : Config) : application :=
  let dsn := c.MySQLUserPassword ++ "@tcp(" ++ c.MySQLAddress ++ ")/?timeout=" ++ c.MySQLTimeout ++ "s"
  { debug := debug, dsn := dsn }

/-- The database operations other than `close`, in order. -/
def attempts (ops : List DbOp) : List DbOp :=
  ops.filter (fun o => o != DbOp.close)

/-- The response `check` leaves on a fresh writer. -/
def application.serve (app : application) (env : DbBehaviour) (r : Request) : Response :=
  (app.check env r World.fresh).w.response

/-! ## Configuration loading -/

/-- What `ioutil.ReadFile` answers for a path. -/
structure FileSystem where
  readFile : String → Except GoError String

/-- A scalar value of a configuration file, as the YAML reader resolves it:
a string, an integer, or a floating-point number whose value is a whole
number. -/
inductive Scalar where
  | str (s : String)
  | int (n : Nat)
  | wholeFloat (n : Nat)
deriving DecidableEq, Repr

/-- The top-level mapping of a configuration file: keys and resolved scalars
in file order. -/
abbrev Document := List (String × Scalar)

/-- Plain words YAML reads as a boolean or as null, in lower case. -/
def reservedWords : List String :=
  ["y", "yes", "n", "no", "true", "false", "on", "off", "null"]

/-- ASCII lower case of a run of characters. -/
def lowerCase (cs : List Char) : String :=
  String.mk (cs.map Char.toLower)

/-- Characters of a key the reader accepts: letters, digits, underscore. -/
def isKeyChar (c : Char) : Bool :=
  c.isAlphanum || c == '_'

/-- Characters of an unquoted string value the reader accepts. -/
def isPlainChar (c : Char) : Bool :=
  c.isAlphanum || c == '_' || c == '.' || c == ':' || c == '@' || c == '/' || c == '-'

/-- Characters the reader accepts between double quotes: printable ASCII other
than the double quote (34) and the backslash (92). -/
def isQuotedChar (c : Char) : Bool :=
  decide (32 ≤ c.toNat) && decide (c.toNat ≤ 126) && c.toNat != 34 && c.toNat != 92

/-- A run that starts with a letter and is not, in any letter case, a word
YAML reads as a boolean or null: YAML reads it as a string. -/
def isWord (cs : List Char) : Bool :=
  match cs with
  | [] => false
  | c :: _ => c.isAlpha && !(reservedWords.contains (lowerCase cs))

/-- A key: at most 64 key characters forming a word. -/
def readKey (cs : List Char) : Option String :=
  if cs.all isKeyChar && isWord cs && decide (cs.length ≤ 64) then some (String.mk cs) else none

/-- The number a run of decimal digits denotes. -/
def digitsValue (cs : List Char) : Nat :=
  cs.foldl (fun n c => 10 * n + (c.toNat - 48)) 0

/-- A run of digits without a superfluous leading zero. -/
def isCanonical (cs : List Char) : Bool :=
  match cs with
  | [] => false
  | [_] => true
  | c :: _ => c != '0'

/-- An unquoted value that starts with a digit: a decimal integer of at most
18 digits, or at most 5 digits followed by a point and zeros only. -/
def readNumber (cs : List Char) : Option Scalar :=
  let whole := cs.takeWhile Char.isDigit
  match cs.dropWhile Char.isDigit with
  | [] =>
    if isCanonical whole && decide (whole.length ≤ 18) then some (Scalar.int (digitsValue whole))
    else none
  | c :: zeros =>
    if c == '.' && isCanonical whole && decide (whole.length ≤ 5) && !zeros.isEmpty
        && zeros.all (fun z => z == '0')
    then some (Scalar.wholeFloat (digitsValue whole))
    else none

/-- The value part of a line: a double-quoted string, an unquoted string, or a
number.  `none` for anything else. -/
def readScalar (cs : List Char) : Option Scalar :=
  match cs with
  | [] => none
  | c :: rest =>
    if c.toNat = 34 then
      if rest.getLast?.map Char.toNat = some 34 && rest.dropLast.all isQuotedChar
      then some (Scalar.str (String.mk rest.dropLast))
      else none
    else if cs.all isPlainChar && isWord cs && cs.getLast? != some ':'
    then some (Scalar.str (String.mk cs))
    else if c.isDigit then readNumber cs
    else none

/-- One line of the file: a key, a colon, one space, a value. -/
def readEntry (line : List Char) : Option (String × Scalar) :=
  match line.dropWhile isKeyChar with
  | ':' :: ' ' :: value =>
    match readKey (line.takeWhile isKeyChar), readScalar value with
    | some k, some v => some (k, v)
    | _, _ => none
  | _ => none

/-- The lines of a text; a line feed ends a line. -/
def splitLines : List Char → List (List Char)
  | [] => []
  | c :: cs =>
    if c = '\n' then [] :: splitLines cs
    else
      match splitLines cs with
      | [] => [[c]]
      | l :: ls => (c :: l) :: ls

/-- Reads every line as an entry. -/
def readEntries : List (List Char) → Option Document
  | [] => some []
  | line :: rest =>
    match readEntry line, readEntries rest with
    | some e, some es => some (e :: es)
    | _, _ => none

/-- The YAML reader on the files this development covers: a block mapping,
one entry per line, whose keys differ even when letter case is ignored.
`none` means the file is not of that shape and the reader is not modelled
on it (it may be malformed or simply richer YAML). -/
def readDocument (y : String) : Option Document :=
  match readEntries (splitLines y.data) with
  | none => none
  | some doc =>
    if (doc.map (fun e => lowerCase e.1.data)).Nodup then some doc else none

/-- The text stored into a string field for a scalar: a string as it is, a
number in decimal (`strconv.FormatInt`, and `strconv.FormatFloat` with format
`g`, which prints a whole number below a million without point or exponent). -/
def Scalar.fieldText : Scalar → String
  | Scalar.str s => s
  | Scalar.int n => toString n
  | Scalar.wholeFloat n => toString n

/-- Stores a value into the field of `Config` that a key names.  The names are
the struct tags `json:"mysql_address"`, `json:"mysql_timeout"`,
`json:"mysql_user_password"` and `json:"http_address"`; the decoder compares
them with the key ignoring letter case, and ignores a key that names no
field. -/
def Config.setField (c : Config) (key value : String) : Config :=
  if lowerCase key.data = "mysql_address" then { c with MySQLAddress := value }
  else if lowerCase key.data = "mysql_timeout" then { c with MySQLTimeout := value }
  else if lowerCase key.data = "mysql_user_password" then { c with MySQLUserPassword := value }
  else if lowerCase key.data = "http_address" then { c with HttpAddress := value }
  else c

/-- The field of `Config` carrying a given struct tag. -/
def Config.getField (c : Config) (tag : String) : String :=
  if tag = "mysql_address" then c.MySQLAddress
  else if tag = "mysql_timeout" then c.MySQLTimeout
  else if tag = "mysql_user_password" then c.MySQLUserPassword
  else if tag = "http_address" then c.HttpAddress
  else ""

/-- The four struct tags of `Config`. -/
def Config.tags : List String :=
  ["mysql_address", "mysql_timeout", "mysql_user_password", "http_address"]

/-- Stores the entries of a document into a record, one after the other. -/
def Config.decode (c : Config) (doc : Document) : Config :=
  doc.foldl (fun acc e => acc.setField e.1 e.2.fieldText) c

/-- The call `yaml.Unmarshal(y, &c)` into `github.com/ghodss/yaml`, a library
the program uses.  On a file `readDocument` covers it returns a nil error and the record
with every entry stored; `none` where the file is outside what is modelled. -/
def yamlUnmarshal (y : String) (c : Config) : Option (Config × Option GoError) :=
  match readDocument y with
  | none => none
  | some doc => some (c.decode doc, none)

/-- What a call of `parseConfig` yields: the two returned values and whether
`flag.Usage()` was run. -/
structure Loaded where
  c : Config
  err : Option GoError
  usage : Bool
deriving DecidableEq, Repr

/-- The function `func parseConfig(p string) (Config, error)`; `none` where the
file read is outside what `yamlUnmarshal` models. -/
def parseConfig (fs : FileSystem) (p : String) : Option Loaded :=
  let c : Config := ⟨"", "", "", ""⟩
  match fs.readFile p with
  | Except.error err => some ⟨c, some err, true⟩
  | Except.ok rawConfig =>
    match yamlUnmarshal rawConfig c with
    | none => none
    | some (c1, some err) => some ⟨c1, some err, false⟩
    | some (c1, none) => some ⟨c1, none, false⟩

/-- A value as it is written in a file: its text, between double quotes or
not. -/
structure Written where
  text : String
  quoted : Bool
deriving DecidableEq, Repr

/-- A written value the reader takes as a string: between quotes, printable
ASCII without quote and backslash; unquoted, a word of plain characters that
does not end in a colon. -/
def Written.isString (v : Written) : Bool :=
  if v.quoted then v.text.data.all isQuotedChar
  else v.text.data.all isPlainChar && isWord v.text.data && v.text.data.getLast? != some ':'

/-- A written value the reader takes as an integer in its usual decimal form:
unquoted, at most 18 digits, no superfluous leading zero. -/
def Written.isInteger (v : Written) : Bool :=
  !v.quoted && v.text.data.all Char.isDigit && isCanonical v.text.data
    && decide (v.text.data.length ≤ 18)

/-- A written value that is a string or an integer in the sense above. -/
def Written.isVerbatim (v : Written) : Bool :=
  v.isString || v.isInteger

/-- The scalar the reader resolves a written string or integer to. -/
def Written.scalar (v : Written) : Scalar :=
  if v.isInteger then Scalar.int (digitsValue v.text.data) else Scalar.str v.text

/-- The characters of a written value. -/
def Written.chars (v : Written) : List Char :=
  if v.quoted then Char.ofNat 34 :: (v.text.data ++ [Char.ofNat 34]) else v.text.data

/-- A key the reader accepts. -/
def isKey (k : String) : Bool :=
  k.data.all isKeyChar && isWord k.data && decide (k.data.length ≤ 64)

/-- The text of a file with the given entries, one per line. -/
def writeFile : List (String × Written) → List Char
  | [] => []
  | e :: es => e.1.data ++ ':' :: ' ' :: (e.2.chars ++ '\n' :: writeFile es)

/-! ## Properties of the handler -/

/-- The query text `queryReadOnly` sends. -/
def readOnlyQuery : String := "SELECT @@global.read_only;"

/-- The response `http.Error` produces on a fresh writer for status 503 with
the status text as message. -/
def unavailable : Response :=
  { status := 503,
    header := [("Content-Type", "text/plain; charset=utf-8"), ("X-Content-Type-Options", "nosniff")],
    body := "Service Unavailable\n" }

/-- The response `http.NotFound` produces on a fresh writer. -/
def notFound : Response :=
  { status := 404,
    header := [("Content-Type", "text/plain; charset=utf-8"), ("X-Content-Type-Options", "nosniff")],
    body := "404 page not found\n" }

theorem serverError_fresh_response (app : application) (err : GoError) (s : World)
    (hw : s.w = ResponseWriter.fresh) :
    (app.serverError err s).w.response = unavailable := by
  cases hd : app.debug <;>
    simp [application.serverError, hd, hw, unavailable, StatusText,
      StatusServiceUnavailable] <;> decide

theorem serverError_dbOps (app : application) (err : GoError) (s : World) :
    (app.serverError err s).dbOps = s.dbOps := by
  cases hd : app.debug <;> simp [application.serverError, hd]

theorem serverError_liveConns (app : application) (err : GoError) (s : World) :
    (app.serverError err s).liveConns = s.liveConns := by
  cases hd : app.debug <;> simp [application.serverError, hd]

theorem serverError_calls (app : application) (err : GoError) (s : World) :
    (app.serverError err s).calls = s.calls ++ [Call.serverError err] := by
  cases hd : app.debug <;> simp [application.serverError, hd]

theorem serverError_infoLog (app : application) (err : GoError) (s : World) :
    (app.serverError err s).infoLog = s.infoLog := by
  cases hd : app.debug <;> simp [application.serverError, hd]

theorem serverError_errorLog (app : application) (err : GoError) (s : World) :
    (app.serverError err s).errorLog =
      if app.debug then s.errorLog ++ [err.msg] else s.errorLog := by
  cases hd : app.debug <;> simp [application.serverError, hd]

/-- Every way through `check` on the root path, by what the database answers. -/
theorem check_root_cases (app : application) (env : DbBehaviour) (r : Request) (s : World)
    (hpath : r.URL.Path = "/") :
    app.check env r s =
      match env.openErr "mysql" app.dsn with
      | some e =>
        app.serverError e { s with dbOps := s.dbOps ++ [DbOp.sqlOpen "mysql" app.dsn] }
      | none =>
        let s1 : World :=
          { s with dbOps := s.dbOps ++ [DbOp.sqlOpen "mysql" app.dsn],
                   liveConns := s.liveConns + 1 }
        match env.pingErr with
        | some e => dbClose (app.serverError e { s1 with dbOps := s1.dbOps ++ [DbOp.ping] })
        | none =>
          let s2 : World :=
            { s1 with dbOps := s1.dbOps ++ [DbOp.ping] ++ [DbOp.queryRow readOnlyQuery] }
          match env.scan readOnlyQuery with
          | Except.error e => dbClose (app.serverError e s2)
          | Except.ok v =>
            if v ≠ 0 then dbClose (app.serverError (errorsNew "mysql is read only") s2)
            else dbClose (if app.debug then { s2 with infoLog := s2.infoLog ++ ["check is ok"] }
                          else s2) := by
  unfold application.check
  simp only [hpath, ne_eq, not_true_eq_false, if_false]
  unfold sqlOpen
  cases ho : env.openErr "mysql" app.dsn with
  | some e => simp
  | none =>
    simp only [application.checkOpened, dbPing]
    cases hp : env.pingErr with
    | some e => simp
    | none =>
      simp only [queryReadOnly, dbQueryRowScan, readOnlyQuery]
      cases hs : env.scan "SELECT @@global.read_only;" with
      | error e => simp
      | ok v =>
        by_cases hv : v = 0 <;> simp [hv]

theorem check_other_path (app : application) (env : DbBehaviour) (r : Request) (s : World)
    (hpath : r.URL.Path ≠ "/") :
    app.check env r s = NotFound r s := by
  simp [application.check, hpath]

theorem notFound_fresh_response (r : Request) :
    (NotFound r World.fresh).w.response = notFound := by
  simp [NotFound, World.fresh, notFound, StatusNotFound]
  decide

/-- C1: on the root path, when open and ping succeed and the scan of
`SELECT @@global.read_only` gives 0, `check` leaves the response writer as it
found it (no status, no header, no body written) and calls neither
`serverError` nor `http.NotFound`, whatever the debug flag; the server then
answers 200 with an empty body. -/
theorem check_healthy_writes_nothing (app : application) (env : DbBehaviour) (r : Request)
    (s : World)
    (hpath : r.URL.Path = "/")
    (hopen : env.openErr "mysql" app.dsn = none)
    (hping : env.pingErr = none)
    (hscan : env.scan "SELECT @@global.read_only;" = Except.ok 0) :
    (app.check env r s).w = s.w ∧
    (app.check env r s).calls = s.calls ∧
    app.serve env r = { status := 200, header := [], body := "" } := by
  have key : ∀ t : World, (app.check env r t).w = t.w ∧ (app.check env r t).calls = t.calls := by
    intro t
    rw [check_root_cases app env r t hpath]
    cases hd : app.debug <;> simp [hopen, hping, hscan, readOnlyQuery, dbClose]
  refine ⟨(key s).1, (key s).2, ?_⟩
  unfold application.serve
  rw [(key World.fresh).1]
  decide

theorem check_healthy_writes_nothing_witness :
    (application.check ⟨true, "root:secret@tcp(db:3306)/?timeout=5s"⟩
        ⟨fun _ _ => none, none, fun _ => Except.ok 0⟩ ⟨"GET", ⟨"/"⟩⟩ World.fresh).w
      = World.fresh.w ∧
    (application.check ⟨true, "root:secret@tcp(db:3306)/?timeout=5s"⟩
        ⟨fun _ _ => none, none, fun _ => Except.ok 0⟩ ⟨"GET", ⟨"/"⟩⟩ World.fresh).calls
      = World.fresh.calls ∧
    application.serve ⟨true, "root:secret@tcp(db:3306)/?timeout=5s"⟩
        ⟨fun _ _ => none, none, fun _ => Except.ok 0⟩ ⟨"GET", ⟨"/"⟩⟩
      = { status := 200, header := [], body := "" } :=
  check_healthy_writes_nothing ⟨true, "root:secret@tcp(db:3306)/?timeout=5s"⟩
    ⟨fun _ _ => none, none, fun _ => Except.ok 0⟩ ⟨"GET", ⟨"/"⟩⟩ World.fresh rfl rfl rfl rfl

/-- C2: on any path other than the root, the response of `check` is the
response of `http.NotFound` (status 404, the two plain-text headers, the line
`404 page not found`), and it is the same for every database behaviour and
every application value, the debug flag included. -/
theorem check_other_path_not_found (app : application) (env : DbBehaviour) (r : Request)
    (hpath : r.URL.Path ≠ "/") :
    app.serve env r =
      { status := 404,
        header := [("Content-Type", "text/plain; charset=utf-8"),
                   ("X-Content-Type-Options", "nosniff")],
        body := "404 page not found\n" } ∧
    (app.check env r World.fresh).calls = [Call.notFound] ∧
    ∀ (app2 : application) (env2 : DbBehaviour), app2.serve env2 r = app.serve env r := by
  have key : ∀ (a : application) (e : DbBehaviour), a.serve e r = notFound := by
    intro a e
    unfold application.serve
    rw [check_other_path a e r World.fresh hpath, notFound_fresh_response]
  refine ⟨by rw [key]; rfl, ?_, ?_⟩
  · rw [check_other_path app env r World.fresh hpath]
    simp [NotFound, World.fresh]
  · intro a e
    rw [key, key]

theorem check_other_path_not_found_witness :
    application.serve ⟨false, "root:secret@tcp(db:3306)/?timeout=5s"⟩
        ⟨fun _ _ => none, none, fun _ => Except.ok 0⟩ ⟨"GET", ⟨"/health"⟩⟩ =
      { status := 404,
        header := [("Content-Type", "text/plain; charset=utf-8"),
                   ("X-Content-Type-Options", "nosniff")],
        body := "404 page not found\n" } :=
  (check_other_path_not_found ⟨false, "root:secret@tcp(db:3306)/?timeout=5s"⟩
    ⟨fun _ _ => none, none, fun _ => Except.ok 0⟩ ⟨"GET", ⟨"/health"⟩⟩ (by decide)).1

/-- On the root path, whenever one of the steps fails, the response on a fresh
writer is the one `http.Error` builds for 503. -/
theorem serve_failure (app : application) (env : DbBehaviour) (r : Request)
    (hpath : r.URL.Path = "/")
    (hfail : (∃ e, env.openErr "mysql" app.dsn = some e) ∨
      (∃ e, env.pingErr = some e) ∨
      (∃ e, env.scan "SELECT @@global.read_only;" = Except.error e) ∨
      (∃ v, env.scan "SELECT @@global.read_only;" = Except.ok v ∧ v ≠ 0)) :
    app.serve env r = unavailable := by
  unfold application.serve
  rw [check_root_cases app env r World.fresh hpath]
  cases ho : env.openErr "mysql" app.dsn with
  | some e => exact serverError_fresh_response app e _ rfl
  | none =>
    cases hp : env.pingErr with
    | some e => exact serverError_fresh_response app e _ rfl
    | none =>
      cases hs : env.scan readOnlyQuery with
      | error e => exact serverError_fresh_response app e _ rfl
      | ok v =>
        by_cases hv : v = 0
        · exfalso
          rcases hfail with ⟨e, h⟩ | ⟨e, h⟩ | ⟨e, h⟩ | ⟨u, h, hu⟩
          · simp [ho] at h
          · simp [hp] at h
          · rw [readOnlyQuery] at hs; simp [hs] at h
          · rw [readOnlyQuery] at hs; rw [hs] at h
            injection h with h
            exact hu (h ▸ hv)
        · simp only [ne_eq, hv, not_false_eq_true, if_true]
          exact serverError_fresh_response app _ _ rfl

/-- C3 as stated fails: with open succeeding and the ping refused, the body of
the 503 response is not the status text itself. -/
theorem check_unreachable_body_is_not_status_text :
    ¬ ((application.serve ⟨false, "root:secret@tcp(db:3306)/?timeout=5s"⟩
          ⟨fun _ _ => none, some ⟨"dial tcp 10.0.0.7:3306: connect: connection refused"⟩,
            fun _ => Except.ok 0⟩ ⟨"GET", ⟨"/"⟩⟩).status = 503 ∧
       (application.serve ⟨false, "root:secret@tcp(db:3306)/?timeout=5s"⟩
          ⟨fun _ _ => none, some ⟨"dial tcp 10.0.0.7:3306: connect: connection refused"⟩,
            fun _ => Except.ok 0⟩ ⟨"GET", ⟨"/"⟩⟩).body = StatusText StatusServiceUnavailable) := by
  decide

/-- C3 (amended): on the root path, when the open fails or the ping fails, with
any error value, the response status is 503 and the body is the status text
of 503 followed by a line feed, `Service Unavailable` and a newline: a
constant in which the message of the error does not occur. -/
theorem check_unreachable_503 (app : application) (env : DbBehaviour) (r : Request)
    (hpath : r.URL.Path = "/")
    (hfail : (∃ e, env.openErr "mysql" app.dsn = some e) ∨
      (env.openErr "mysql" app.dsn = none ∧ ∃ e, env.pingErr = some e)) :
    (app.serve env r).status = 503 ∧
    (app.serve env r).body = StatusText StatusServiceUnavailable ++ "\n" ∧
    (app.serve env r).body = "Service Unavailable\n" := by
  have h : app.serve env r = unavailable := by
    apply serve_failure app env r hpath
    rcases hfail with h | ⟨_, h⟩
    · exact Or.inl h
    · exact Or.inr (Or.inl h)
  rw [h]
  decide

theorem check_unreachable_503_witness :
    (application.serve ⟨true, "root:secret@tcp(db:3306)/?timeout=5s"⟩
        ⟨fun _ _ => none, some ⟨"dial tcp 10.0.0.7:3306: connect: connection refused"⟩,
          fun _ => Except.ok 0⟩ ⟨"GET", ⟨"/"⟩⟩).status = 503 ∧
    (application.serve ⟨true, "root:secret@tcp(db:3306)/?timeout=5s"⟩
        ⟨fun _ _ => none, some ⟨"dial tcp 10.0.0.7:3306: connect: connection refused"⟩,
          fun _ => Except.ok 0⟩ ⟨"GET", ⟨"/"⟩⟩).body
      = StatusText StatusServiceUnavailable ++ "\n" ∧
    (application.serve ⟨true, "root:secret@tcp(db:3306)/?timeout=5s"⟩
        ⟨fun _ _ => none, some ⟨"dial tcp 10.0.0.7:3306: connect: connection refused"⟩,
          fun _ => Except.ok 0⟩ ⟨"GET", ⟨"/"⟩⟩).body = "Service Unavailable\n" :=
  check_unreachable_503 ⟨true, "root:secret@tcp(db:3306)/?timeout=5s"⟩
    ⟨fun _ _ => none, some ⟨"dial tcp 10.0.0.7:3306: connect: connection refused"⟩,
      fun _ => Except.ok 0⟩ ⟨"GET", ⟨"/"⟩⟩ rfl (Or.inr ⟨rfl, ⟨_, rfl⟩⟩)

/-- C4: on the root path, when open and ping succeed and the scanned flag is any
nonzero integer, `queryReadOnly` returns the error `mysql is read only`, which
is the error `check` hands to `serverError`, and the response (status 503, headers, body) equals the response of every root
request in which the open, the ping or the scan fails, for any application
value and any error. -/
theorem check_read_only_indistinguishable (app : application) (env : DbBehaviour)
    (r : Request) (v : Int)
    (hpath : r.URL.Path = "/")
    (hopen : env.openErr "mysql" app.dsn = none)
    (hping : env.pingErr = none)
    (hscan : env.scan "SELECT @@global.read_only;" = Except.ok v)
    (hv : v ≠ 0) :
    (∀ s : World, (queryReadOnly env s).1 = some (errorsNew "mysql is read only")) ∧
    (app.check env r World.fresh).calls
      = [Call.serverError (errorsNew "mysql is read only")] ∧
    (app.serve env r).status = 503 ∧
    ∀ (app2 : application) (env2 : DbBehaviour) (r2 : Request),
      r2.URL.Path = "/" →
      ((∃ e, env2.openErr "mysql" app2.dsn = some e) ∨
       (∃ e, env2.pingErr = some e) ∨
       (∃ e, env2.scan "SELECT @@global.read_only;" = Except.error e)) →
      app.serve env r = app2.serve env2 r2 := by
  have h : app.serve env r = unavailable :=
    serve_failure app env r hpath (Or.inr (Or.inr (Or.inr ⟨v, hscan, hv⟩)))
  refine ⟨?_, ?_, by rw [h]; rfl, ?_⟩
  · intro s
    simp [queryReadOnly, dbQueryRowScan, hscan, hv]
  · rw [check_root_cases app env r World.fresh hpath]
    simp [hopen, hping, hscan, hv, readOnlyQuery, dbClose, serverError_calls,
      World.fresh]
  · intro app2 env2 r2 hpath2 hfail2
    rw [h]
    symm
    apply serve_failure app2 env2 r2 hpath2
    rcases hfail2 with h2 | h2 | h2
    · exact Or.inl h2
    · exact Or.inr (Or.inl h2)
    · exact Or.inr (Or.inr (Or.inl h2))

theorem check_read_only_indistinguishable_witness :
    (application.serve ⟨false, "root:secret@tcp(db:3306)/?timeout=5s"⟩
        ⟨fun _ _ => none, none, fun _ => Except.ok (-1)⟩ ⟨"GET", ⟨"/"⟩⟩).status = 503 :=
  (check_read_only_indistinguishable ⟨false, "root:secret@tcp(db:3306)/?timeout=5s"⟩
    ⟨fun _ _ => none, none, fun _ => Except.ok (-1)⟩ ⟨"GET", ⟨"/"⟩⟩ (-1) rfl rfl rfl rfl
    (by decide)).2.2.1

/-- C5: for every request and every database behaviour, `check` with debug on
and with debug off leaves the same response writer, hence the same response;
the database operations, the open handles and the responder calls agree too,
so only the two logs can differ. -/
theorem check_debug_same_response (dsn : String) (env : DbBehaviour) (r : Request)
    (s : World) :
    ((application.mk true dsn).check env r s).w = ((application.mk false dsn).check env r s).w ∧
    ((application.mk true dsn).check env r s).dbOps
      = ((application.mk false dsn).check env r s).dbOps ∧
    ((application.mk true dsn).check env r s).liveConns
      = ((application.mk false dsn).check env r s).liveConns ∧
    ((application.mk true dsn).check env r s).calls
      = ((application.mk false dsn).check env r s).calls ∧
    (application.mk true dsn).serve env r = (application.mk false dsn).serve env r := by
  have key : ∀ t : World,
      ((application.mk true dsn).check env r t).w = ((application.mk false dsn).check env r t).w ∧
      ((application.mk true dsn).check env r t).dbOps
        = ((application.mk false dsn).check env r t).dbOps ∧
      ((application.mk true dsn).check env r t).liveConns
        = ((application.mk false dsn).check env r t).liveConns ∧
      ((application.mk true dsn).check env r t).calls
        = ((application.mk false dsn).check env r t).calls := by
    intro t
    by_cases hpath : r.URL.Path = "/"
    · rw [check_root_cases _ env r t hpath, check_root_cases _ env r t hpath]
      cases ho : env.openErr "mysql" dsn with
      | some e => simp [application.serverError]
      | none =>
        cases hp : env.pingErr with
        | some e => simp [application.serverError, dbClose]
        | none =>
          cases hs : env.scan readOnlyQuery with
          | error e => simp [application.serverError, dbClose]
          | ok v =>
            by_cases hv : v = 0 <;> simp [application.serverError, dbClose, hv]
    · rw [check_other_path _ env r t hpath, check_other_path _ env r t hpath]
      simp
  refine ⟨(key s).1, (key s).2.1, (key s).2.2.1, (key s).2.2.2, ?_⟩
  unfold application.serve
  rw [(key World.fresh).1]

/-- C7: a connection that was opened is closed exactly once, as the last
database operation of `check`, whatever happens after the open; when the path
is not the root or the open fails there is no close; and in every case the
number of open handles after the request is what it was before. -/
theorem check_closes_connection (app : application) (env : DbBehaviour) (r : Request)
    (s : World) :
    (r.URL.Path = "/" → env.openErr "mysql" app.dsn = none →
      (app.check env r s).dbOps.count DbOp.close = s.dbOps.count DbOp.close + 1 ∧
      (app.check env r s).dbOps.getLast? = some DbOp.close) ∧
    ((r.URL.Path ≠ "/" ∨ ∃ e, env.openErr "mysql" app.dsn = some e) →
      (app.check env r s).dbOps.count DbOp.close = s.dbOps.count DbOp.close) ∧
    (app.check env r s).liveConns = s.liveConns := by
  by_cases hpath : r.URL.Path = "/"
  · rw [check_root_cases app env r s hpath]
    cases ho : env.openErr "mysql" app.dsn with
    | some e => simp [serverError_dbOps, serverError_liveConns, hpath]
    | none =>
      cases hp : env.pingErr with
      | some e =>
        simp [serverError_dbOps, serverError_liveConns, dbClose, hpath, List.count_append]
      | none =>
        cases hs : env.scan readOnlyQuery with
        | error e =>
          simp [serverError_dbOps, serverError_liveConns, dbClose, hpath, List.count_append]
        | ok v =>
          by_cases hv : v = 0 <;> cases hd : app.debug <;>
            simp [serverError_dbOps, serverError_liveConns, dbClose, hpath, hv,
              List.count_append]
  · rw [check_other_path app env r s hpath]
    simp [NotFound, hpath]

theorem check_closes_connection_witness :
    (application.check ⟨false, "root:secret@tcp(db:3306)/?timeout=5s"⟩
        ⟨fun _ _ => none, none, fun _ => Except.ok 1⟩ ⟨"GET", ⟨"/"⟩⟩ World.fresh).dbOps.count
        DbOp.close = 1 ∧
    (application.check ⟨false, "root:secret@tcp(db:3306)/?timeout=5s"⟩
        ⟨fun _ _ => none, none, fun _ => Except.ok 1⟩ ⟨"GET", ⟨"/"⟩⟩ World.fresh).dbOps.getLast?
      = some DbOp.close :=
  (check_closes_connection ⟨false, "root:secret@tcp(db:3306)/?timeout=5s"⟩
    ⟨fun _ _ => none, none, fun _ => Except.ok 1⟩ ⟨"GET", ⟨"/"⟩⟩ World.fresh).1 rfl rfl

/-- C8: with debug off `check` adds nothing to the error log and nothing to
the info log, for every request and database behaviour.  With debug on, a
root request that fails adds exactly one entry to the error log, the message
of the error met (the open, ping or scan error, or `mysql is read only` for
a nonzero flag), and nothing to the info log; a root request that succeeds
adds exactly the entry `check is ok` to the info log and nothing to the
error log. -/
theorem check_logging (app : application) (env : DbBehaviour) (r : Request) (s : World) :
    (app.debug = false →
      (app.check env r s).errorLog = s.errorLog ∧ (app.check env r s).infoLog = s.infoLog) ∧
    (app.debug = true → r.URL.Path = "/" →
      (∀ e, env.openErr "mysql" app.dsn = some e →
        (app.check env r s).errorLog = s.errorLog ++ [e.msg] ∧
        (app.check env r s).infoLog = s.infoLog) ∧
      (env.openErr "mysql" app.dsn = none → ∀ e, env.pingErr = some e →
        (app.check env r s).errorLog = s.errorLog ++ [e.msg] ∧
        (app.check env r s).infoLog = s.infoLog) ∧
      (env.openErr "mysql" app.dsn = none → env.pingErr = none →
        ∀ e, env.scan "SELECT @@global.read_only;" = Except.error e →
        (app.check env r s).errorLog = s.errorLog ++ [e.msg] ∧
        (app.check env r s).infoLog = s.infoLog) ∧
      (env.openErr "mysql" app.dsn = none → env.pingErr = none →
        ∀ v, env.scan "SELECT @@global.read_only;" = Except.ok v → v ≠ 0 →
        (app.check env r s).errorLog = s.errorLog ++ ["mysql is read only"] ∧
        (app.check env r s).infoLog = s.infoLog) ∧
      (env.openErr "mysql" app.dsn = none → env.pingErr = none →
        env.scan "SELECT @@global.read_only;" = Except.ok 0 →
        (app.check env r s).errorLog = s.errorLog ∧
        (app.check env r s).infoLog = s.infoLog ++ ["check is ok"])) := by
  constructor
  · intro hd
    by_cases hpath : r.URL.Path = "/"
    · rw [check_root_cases app env r s hpath]
      cases ho : env.openErr "mysql" app.dsn with
      | some e => simp [serverError_errorLog, serverError_infoLog, hd]
      | none =>
        cases hp : env.pingErr with
        | some e => simp [serverError_errorLog, serverError_infoLog, hd, dbClose]
        | none =>
          cases hs : env.scan readOnlyQuery with
          | error e => simp [serverError_errorLog, serverError_infoLog, hd, dbClose]
          | ok v =>
            by_cases hv : v = 0 <;>
              simp [serverError_errorLog, serverError_infoLog, hd, dbClose, hv]
    · rw [check_other_path app env r s hpath]
      simp [NotFound]
  · intro hd hpath
    rw [check_root_cases app env r s hpath]
    refine ⟨?_, ?_, ?_, ?_, ?_⟩
    · intro e ho
      simp [ho, serverError_errorLog, serverError_infoLog, hd]
    · intro ho e hp
      simp [ho, hp, serverError_errorLog, serverError_infoLog, hd, dbClose]
    · intro ho hp e hs
      simp [ho, hp, hs, readOnlyQuery, serverError_errorLog, serverError_infoLog, hd, dbClose]
    · intro ho hp v hs hv
      simp [ho, hp, hs, hv, readOnlyQuery, serverError_errorLog, serverError_infoLog, hd,
        dbClose, errorsNew]
    · intro ho hp hs
      simp [ho, hp, hs, readOnlyQuery, hd, dbClose]

theorem check_logging_witness :
    (application.check ⟨true, "root:secret@tcp(db:3306)/?timeout=5s"⟩
        ⟨fun _ _ => none, none, fun _ => Except.ok 1⟩ ⟨"GET", ⟨"/"⟩⟩ World.fresh).errorLog
      = World.fresh.errorLog ++ ["mysql is read only"] ∧
    (application.check ⟨true, "root:secret@tcp(db:3306)/?timeout=5s"⟩
        ⟨fun _ _ => none, none, fun _ => Except.ok 1⟩ ⟨"GET", ⟨"/"⟩⟩ World.fresh).infoLog
      = World.fresh.infoLog :=
  ((check_logging ⟨true, "root:secret@tcp(db:3306)/?timeout=5s"⟩
    ⟨fun _ _ => none, none, fun _ => Except.ok 1⟩ ⟨"GET", ⟨"/"⟩⟩ World.fresh).2 rfl rfl).2.2.2.1
    rfl rfl 1 rfl (by decide)

/-- C10: the database operations of `check` other than the final close form a
prefix of open, ping, read-only query, with no operation repeated.  On a path
other than the root there is no database operation at all; when the open
fails only the open was attempted; when the ping fails only open and ping;
otherwise all three, once each. -/
theorem check_db_sequence (app : application) (env : DbBehaviour) (r : Request) :
    attempts (app.check env r World.fresh).dbOps <+:
      [DbOp.sqlOpen "mysql" app.dsn, DbOp.ping, DbOp.queryRow "SELECT @@global.read_only;"] ∧
    (attempts (app.check env r World.fresh).dbOps).Nodup ∧
    (r.URL.Path ≠ "/" → (app.check env r World.fresh).dbOps = []) ∧
    (r.URL.Path = "/" → (∃ e, env.openErr "mysql" app.dsn = some e) →
      (app.check env r World.fresh).dbOps = [DbOp.sqlOpen "mysql" app.dsn]) ∧
    (r.URL.Path = "/" → env.openErr "mysql" app.dsn = none → (∃ e, env.pingErr = some e) →
      (app.check env r World.fresh).dbOps
        = [DbOp.sqlOpen "mysql" app.dsn, DbOp.ping, DbOp.close]) ∧
    (r.URL.Path = "/" → env.openErr "mysql" app.dsn = none → env.pingErr = none →
      (app.check env r World.fresh).dbOps
        = [DbOp.sqlOpen "mysql" app.dsn, DbOp.ping,
           DbOp.queryRow "SELECT @@global.read_only;", DbOp.close]) := by
  have hpre1 : [DbOp.sqlOpen "mysql" app.dsn] <+:
      [DbOp.sqlOpen "mysql" app.dsn, DbOp.ping, DbOp.queryRow "SELECT @@global.read_only;"] :=
    ⟨[DbOp.ping, DbOp.queryRow "SELECT @@global.read_only;"], rfl⟩
  have hpre2 : [DbOp.sqlOpen "mysql" app.dsn, DbOp.ping] <+:
      [DbOp.sqlOpen "mysql" app.dsn, DbOp.ping, DbOp.queryRow "SELECT @@global.read_only;"] :=
    ⟨[DbOp.queryRow "SELECT @@global.read_only;"], rfl⟩
  by_cases hpath : r.URL.Path = "/"
  · rw [check_root_cases app env r World.fresh hpath]
    cases ho : env.openErr "mysql" app.dsn with
    | some e =>
      simp [serverError_dbOps, hpath, World.fresh, attempts, hpre1]
    | none =>
      cases hp : env.pingErr with
      | some e =>
        simp [serverError_dbOps, hpath, World.fresh, attempts, dbClose, hpre2]
      | none =>
        cases hs : env.scan readOnlyQuery with
        | error e =>
          simp [serverError_dbOps, hpath, World.fresh, attempts, dbClose, readOnlyQuery]
        | ok v =>
          by_cases hv : v = 0 <;> cases hd : app.debug <;>
            simp [serverError_dbOps, hpath, World.fresh, attempts, dbClose, readOnlyQuery, hv]
  · rw [check_other_path app env r World.fresh hpath]
    simp [NotFound, hpath, World.fresh, attempts]

theorem check_db_sequence_witness :
    (application.check ⟨false, "root:secret@tcp(db:3306)/?timeout=5s"⟩
        ⟨fun _ _ => none, some ⟨"driver: bad connection"⟩, fun _ => Except.ok 0⟩
        ⟨"GET", ⟨"/"⟩⟩ World.fresh).dbOps
      = [DbOp.sqlOpen "mysql" "root:secret@tcp(db:3306)/?timeout=5s", DbOp.ping, DbOp.close] :=
  (check_db_sequence ⟨false, "root:secret@tcp(db:3306)/?timeout=5s"⟩
    ⟨fun _ _ => none, some ⟨"driver: bad connection"⟩, fun _ => Except.ok 0⟩
    ⟨"GET", ⟨"/"⟩⟩).2.2.2.2.1 rfl rfl ⟨_, rfl⟩

/-! ## Properties of startup -/

/-- C6: for every configuration record the connection string `main` builds is
the credentials, `@tcp(`, the address, `)/?timeout=`, the timeout and `s`;
the record of the example gives `root:secret@tcp(db:3306)/?timeout=5s`; and
changing `http_address` leaves the connection string as it was. -/
theorem mainApp_dsn (debug : Bool) (c : Config) :
    (mainApp debug c).dsn =
      c.MySQLUserPassword ++ "@tcp(" ++ c.MySQLAddress ++ ")/?timeout=" ++ c.MySQLTimeout ++ "s" ∧
    (mainApp debug
        { MySQLAddress := "db:3306", MySQLTimeout := "5", MySQLUserPassword := "root:secret",
          HttpAddress := ":8080" }).dsn = "root:secret@tcp(db:3306)/?timeout=5s" ∧
    ∀ (h : String) (d : Bool),
      (mainApp d { c with HttpAddress := h }).dsn = (mainApp debug c).dsn := by
  refine ⟨rfl, by cases debug <;> decide, ?_⟩
  intro h d
  rfl

/-! ## Properties of configuration loading -/

theorem toDigitsCore_append (fuel n : Nat) (acc : List Char) :
    Nat.toDigitsCore 10 fuel n acc = Nat.toDigitsCore 10 fuel n [] ++ acc := by
  induction fuel generalizing n acc with
  | zero => simp [Nat.toDigitsCore]
  | succ f ih =>
    simp only [Nat.toDigitsCore]
    split_ifs with h
    · simp
    · rw [ih (n / 10) (Nat.digitChar (n % 10) :: acc), ih (n / 10) [Nat.digitChar (n % 10)]]
      simp

theorem toDigitsCore_fuel (n : Nat) : ∀ fuel, n < fuel →
    Nat.toDigitsCore 10 fuel n [] = Nat.toDigitsCore 10 (n + 1) n [] := by
  induction n using Nat.strong_induction_on with
  | _ n ih =>
    intro fuel h
    obtain ⟨f, rfl⟩ : ∃ f, fuel = f + 1 := ⟨fuel - 1, by omega⟩
    simp only [Nat.toDigitsCore]
    split_ifs with h0
    · rfl
    · have hlt : n / 10 < n := Nat.div_lt_self (by omega) (by omega)
      rw [toDigitsCore_append f, toDigitsCore_append n, ih (n / 10) hlt f (by omega),
        ih (n / 10) hlt n hlt]

theorem toDigits_step (n d : Nat) (hn : 0 < n) (hd : d < 10) :
    Nat.toDigits 10 (10 * n + d) = Nat.toDigits 10 n ++ [Nat.digitChar d] := by
  unfold Nat.toDigits
  have h1 : (10 * n + d) / 10 = n := by omega
  have h2 : (10 * n + d) % 10 = d := by omega
  rw [Nat.toDigitsCore]
  simp only [h1, h2]
  rw [if_neg (by omega), toDigitsCore_append, toDigitsCore_fuel n (10 * n + d) (by omega)]

theorem isDigit_cases (c : Char) (h : c.isDigit = true) :
    c.toNat - 48 < 10 ∧ Nat.digitChar (c.toNat - 48) = c := by
  have hb : 48 ≤ c.toNat ∧ c.toNat ≤ 57 := by
    simp only [Char.isDigit, Bool.and_eq_true, decide_eq_true_eq] at h
    exact ⟨h.1, h.2⟩
  have hc : c = Char.ofNat c.toNat := (Char.ofNat_toNat c).symm
  obtain ⟨h1, h2⟩ := hb
  generalize c.toNat = m at hc h1 h2
  subst hc
  interval_cases m <;> exact ⟨by decide, by decide⟩

theorem digitsValue_snoc (cs : List Char) (c : Char) :
    digitsValue (cs ++ [c]) = 10 * digitsValue cs + (c.toNat - 48) := by
  simp [digitsValue, List.foldl_append]

theorem toDigits_digit (d : Nat) (hd : d < 10) : Nat.toDigits 10 d = [Nat.digitChar d] := by
  interval_cases d <;> rfl

theorem digitsValue_cons_pos (c : Char) (rest : List Char) (hc : c.isDigit = true)
    (h0 : c ≠ '0') : 0 < digitsValue (c :: rest) := by
  have hge : ∀ (l : List Char) (a : Nat),
      a ≤ l.foldl (fun n c => 10 * n + (c.toNat - 48)) a := by
    intro l
    induction l with
    | nil => intro a; exact Nat.le_refl a
    | cons x xs ih =>
      intro a
      exact Nat.le_trans (by omega) (ih (10 * a + (x.toNat - 48)))
  have hpos : 0 < c.toNat - 48 := by
    rcases Nat.eq_zero_or_pos (c.toNat - 48) with h | h
    · exfalso
      apply h0
      have := (isDigit_cases c hc).2
      rw [h] at this
      exact this.symm
    · exact h
  have := hge rest (10 * 0 + (c.toNat - 48))
  simp only [digitsValue, List.foldl_cons]
  omega

/-- Printing the number a run of digits denotes gives the digits back, when
the first digit is not a zero. -/
theorem toDigits_digitsValue (c : Char) (rest : List Char) (h0 : c ≠ '0')
    (hd : ∀ x ∈ c :: rest, x.isDigit = true) :
    Nat.toDigits 10 (digitsValue (c :: rest)) = c :: rest := by
  induction rest using List.reverseRecOn with
  | nil =>
    have h := isDigit_cases c (hd c (List.mem_singleton_self c))
    have hv : digitsValue [c] = c.toNat - 48 := by simp [digitsValue]
    rw [hv, toDigits_digit _ h.1, h.2]
  | append_singleton r x ih =>
    have hr : ∀ y ∈ c :: r, y.isDigit = true := by
      intro y hy
      apply hd y
      simp only [List.mem_cons, List.mem_append] at hy ⊢
      rcases hy with h | h
      · exact Or.inl h
      · exact Or.inr (Or.inl h)
    have hx := isDigit_cases x (hd x (by simp))
    have hsnoc : digitsValue (c :: (r ++ [x])) = 10 * digitsValue (c :: r) + (x.toNat - 48) := by
      rw [← List.cons_append, digitsValue_snoc]
    rw [hsnoc, toDigits_step _ _ (digitsValue_cons_pos c r (hd c (by simp)) h0) hx.1, ih hr,
      hx.2]
    rfl

/-- A decimal integer without superfluous leading zero is printed as it was
written. -/
theorem toString_digitsValue (cs : List Char) (hd : cs.all Char.isDigit = true)
    (hc : isCanonical cs = true) : toString (digitsValue cs) = String.mk cs := by
  have hall : ∀ x ∈ cs, x.isDigit = true := by simpa [List.all_eq_true] using hd
  show (Nat.toDigits 10 (digitsValue cs)).asString = String.mk cs
  congr 1
  match cs, hc, hall with
  | [c], _, hall =>
    have h := isDigit_cases c (hall c (List.mem_singleton_self c))
    have hv : digitsValue [c] = c.toNat - 48 := by simp [digitsValue]
    rw [hv, toDigits_digit _ h.1, h.2]
  | c :: d :: rest, hc, hall =>
    have h0 : c ≠ '0' := by simpa [isCanonical] using hc
    exact toDigits_digitsValue c (d :: rest) h0 hall

theorem splitLines_line (line rest : List Char) (h : ∀ c ∈ line, c ≠ '\n') :
    splitLines (line ++ '\n' :: rest) = line :: splitLines rest := by
  induction line with
  | nil => simp [splitLines]
  | cons c l ih =>
    have hc : c ≠ '\n' := h c (List.mem_cons_self c l)
    have hl : ∀ d ∈ l, d ≠ '\n' := fun d hd => h d (List.mem_cons_of_mem c hd)
    simp [splitLines, hc, ih hl]

theorem isKeyChar_ne_newline (c : Char) (h : isKeyChar c = true) : c ≠ '\n' := by
  intro hc
  subst hc
  exact absurd h (by decide)

theorem isPlainChar_ne_newline (c : Char) (h : isPlainChar c = true) : c ≠ '\n' := by
  intro hc
  subst hc
  exact absurd h (by decide)

theorem isQuotedChar_ne_newline (c : Char) (h : isQuotedChar c = true) : c ≠ '\n' := by
  intro hc
  subst hc
  exact absurd h (by decide)

theorem isAlpha_toNat_ne (c : Char) (h : c.isAlpha = true) : c.toNat ≠ 34 := by
  intro hc
  have : c = Char.ofNat 34 := by rw [← Char.ofNat_toNat c, hc]
  subst this
  exact absurd h (by decide)

theorem isDigit_props (c : Char) (h : c.isDigit = true) :
    c.isAlpha = false ∧ c.toNat ≠ 34 ∧ c ≠ '\n' := by
  have hb : 48 ≤ c.toNat ∧ c.toNat ≤ 57 := by
    simp only [Char.isDigit, Bool.and_eq_true, decide_eq_true_eq] at h
    exact ⟨h.1, h.2⟩
  have hc : c = Char.ofNat c.toNat := (Char.ofNat_toNat c).symm
  obtain ⟨h1, h2⟩ := hb
  generalize c.toNat = m at hc h1 h2
  subst hc
  interval_cases m <;> exact ⟨by decide, by decide, by decide⟩

/-- A written string is not a written integer. -/
theorem isInteger_of_isString (v : Written) (hv : v.isString = true) : v.isInteger = false := by
  unfold Written.isString at hv
  unfold Written.isInteger
  cases hq : v.quoted
  · simp only [hq, Bool.false_eq_true, if_false, Bool.and_eq_true] at hv
    cases hd : v.text.data with
    | nil => rw [hd] at hv; simp [isWord] at hv
    | cons c cs =>
      rw [hd] at hv
      have ha : c.isAlpha = true := by
        have hw := hv.1.2
        simp only [isWord, Bool.and_eq_true] at hw
        exact hw.1
      have hnd : c.isDigit = false := by
        cases hdg : c.isDigit
        · rfl
        · rw [(isDigit_props c hdg).1] at ha
          exact absurd ha (by decide)
      simp [hnd]
  · simp

/-- No line feed in a written string or integer. -/
theorem chars_no_newline (v : Written) (hv : v.isVerbatim = true) :
    ∀ c ∈ v.chars, c ≠ '\n' := by
  intro c hc
  unfold Written.isVerbatim at hv
  unfold Written.chars at hc
  rcases Bool.or_eq_true_iff.mp hv with hs | hi
  · unfold Written.isString at hs
    cases hq : v.quoted
    · simp only [hq, Bool.false_eq_true, if_false, Bool.and_eq_true, List.all_eq_true] at hs hc
      exact isPlainChar_ne_newline c (hs.1.1 c hc)
    · simp only [hq, if_true, List.all_eq_true, List.mem_cons, List.mem_append,
        List.not_mem_nil, or_false] at hs hc
      rcases hc with h | h | h
      · subst h; decide
      · exact isQuotedChar_ne_newline c (hs c h)
      · subst h; decide
  · unfold Written.isInteger at hi
    simp only [Bool.and_eq_true, Bool.not_eq_true', List.all_eq_true] at hi
    simp only [hi.1.1.1, Bool.false_eq_true, if_false] at hc
    exact (isDigit_props c (hi.1.1.2 c hc)).2.2

theorem readScalar_string (v : Written) (hv : v.isString = true) :
    readScalar v.chars = some (Scalar.str v.text) := by
  unfold Written.isString at hv
  unfold Written.chars
  cases hq : v.quoted
  · simp only [hq, Bool.false_eq_true, if_false] at hv ⊢
    cases hd : v.text.data with
    | nil => simp [hd, isWord] at hv
    | cons c cs =>
      have hw : isWord (c :: cs) = true := by
        rw [hd] at hv
        simp only [Bool.and_eq_true] at hv
        exact hv.1.2
      have ha : c.isAlpha = true := by
        simp only [isWord, Bool.and_eq_true] at hw
        exact hw.1
      have h34 : c.toNat ≠ 34 := isAlpha_toNat_ne c ha
      rw [hd] at hv
      simp only [readScalar, h34, if_false, hv, if_true]
      rw [← hd]
  · simp only [hq, if_true] at hv ⊢
    have h34 : (Char.ofNat 34).toNat = 34 := by decide
    simp only [readScalar, h34, if_true, List.getLast?_concat, List.dropLast_concat,
      Option.map_some', hv, BEq.refl, Bool.and_self, decide_True, if_true]

theorem readScalar_integer (v : Written) (hv : v.isInteger = true) :
    readScalar v.chars = some (Scalar.int (digitsValue v.text.data)) := by
  unfold Written.isInteger at hv
  simp only [Bool.and_eq_true, Bool.not_eq_true', decide_eq_true_eq] at hv
  obtain ⟨⟨⟨hq, hdig⟩, hcan⟩, hlen⟩ := hv
  unfold Written.chars
  simp only [hq, Bool.false_eq_true, if_false]
  cases hd : v.text.data with
  | nil => rw [hd] at hcan; simp [isCanonical] at hcan
  | cons c cs =>
    rw [hd] at hdig hcan hlen
    have hall : ∀ x ∈ c :: cs, x.isDigit = true := by
      simpa [List.all_eq_true] using hdig
    have hc := hall c (List.mem_cons_self c cs)
    have hp := isDigit_props c hc
    have hw : isWord (c :: cs) = false := by simp [isWord, hp.1]
    have htake : (c :: cs).takeWhile Char.isDigit = c :: cs :=
      List.takeWhile_eq_self_iff.mpr hall
    have hdrop : (c :: cs).dropWhile Char.isDigit = [] :=
      List.dropWhile_eq_nil_iff.mpr hall
    simp only [readScalar, hp.2.1, if_false, hw, Bool.and_false, Bool.false_and,
      Bool.false_eq_true, hc, if_true, readNumber, htake, hdrop, hcan, Bool.true_and,
      decide_eq_true_eq, hlen]

/-- The reader resolves a written string or integer to its scalar. -/
theorem readScalar_chars (v : Written) (hv : v.isVerbatim = true) :
    readScalar v.chars = some v.scalar := by
  unfold Written.isVerbatim at hv
  unfold Written.scalar
  rcases Bool.or_eq_true_iff.mp hv with hs | hi
  · rw [readScalar_string v hs, isInteger_of_isString v hs]
    simp
  · rw [readScalar_integer v hi, hi]
    simp

/-- The text stored for a written string or integer is the text written. -/
theorem scalar_fieldText (v : Written) : v.scalar.fieldText = v.text := by
  unfold Written.scalar
  cases hi : v.isInteger
  · simp [Scalar.fieldText]
  · simp only [if_true, Scalar.fieldText]
    unfold Written.isInteger at hi
    simp only [Bool.and_eq_true] at hi
    exact toString_digitsValue v.text.data hi.1.1.2 hi.1.2

theorem readKey_data (k : String) (hk : isKey k = true) : readKey k.data = some k := by
  unfold isKey at hk
  simp only [readKey, hk, if_true]

/-- The reader takes a written line for its key and the scalar written. -/
theorem readEntry_line (k : String) (v : Written) (hk : isKey k = true)
    (hv : v.isVerbatim = true) :
    readEntry (k.data ++ ':' :: ' ' :: v.chars) = some (k, v.scalar) := by
  have hall : ∀ c ∈ k.data, isKeyChar c = true := by
    unfold isKey at hk
    simp only [Bool.and_eq_true, List.all_eq_true] at hk
    exact hk.1.1
  have hcolon : isKeyChar ':' = false := by decide
  have hdrop : (k.data ++ ':' :: ' ' :: v.chars).dropWhile isKeyChar
      = ':' :: ' ' :: v.chars := by
    rw [List.dropWhile_append_of_pos hall]
    simp [List.dropWhile_cons, hcolon]
  have htake : (k.data ++ ':' :: ' ' :: v.chars).takeWhile isKeyChar = k.data := by
    rw [List.takeWhile_append_of_pos hall]
    simp [List.takeWhile_cons, hcolon]
  simp only [readEntry, hdrop, htake, readKey_data k hk, readScalar_chars v hv]

/-- Reading back a written file gives the entries written. -/
theorem readEntries_writeFile (es : List (String × Written))
    (hwf : ∀ e ∈ es, isKey e.1 = true ∧ e.2.isVerbatim = true) :
    readEntries (splitLines (writeFile es)) = some (es.map (fun e => (e.1, e.2.scalar))) := by
  induction es with
  | nil => rfl
  | cons e rest ih =>
    have he := hwf e (List.mem_cons_self e rest)
    have hrest : ∀ x ∈ rest, isKey x.1 = true ∧ x.2.isVerbatim = true :=
      fun x hx => hwf x (List.mem_cons_of_mem e hx)
    have hline : ∀ c ∈ e.1.data ++ ':' :: ' ' :: e.2.chars, c ≠ '\n' := by
      intro c hc
      simp only [List.mem_append, List.mem_cons] at hc
      rcases hc with h | h | h | h
      · have hk := he.1
        unfold isKey at hk
        simp only [Bool.and_eq_true, List.all_eq_true] at hk
        exact isKeyChar_ne_newline c (hk.1.1 c h)
      · subst h; decide
      · subst h; decide
      · exact chars_no_newline e.2 he.2 c h
    have hshape : writeFile (e :: rest)
        = (e.1.data ++ ':' :: ' ' :: e.2.chars) ++ '\n' :: writeFile rest := by
      simp [writeFile]
    rw [hshape, splitLines_line _ _ hline]
    simp only [readEntries, readEntry_line e.1 e.2 he.1 he.2, ih hrest, List.map_cons]

theorem getField_setField (c : Config) (k v tag : String) (htag : tag ∈ Config.tags) :
    (c.setField k v).getField tag = if lowerCase k.data = tag then v else c.getField tag := by
  simp only [Config.tags, List.mem_cons, List.mem_singleton, List.not_mem_nil, or_false] at htag
  unfold Config.setField
  rcases htag with rfl | rfl | rfl | rfl <;> split_ifs <;> simp_all [Config.getField]

/-- Entries under other keys leave a field as it was. -/
theorem decode_absent (tag : String) (htag : tag ∈ Config.tags) (doc : Document) :
    ∀ c : Config, (∀ e ∈ doc, lowerCase e.1.data ≠ tag) →
      (c.decode doc).getField tag = c.getField tag := by
  induction doc with
  | nil => intro c _; rfl
  | cons e rest ih =>
    intro c hnot
    show ((c.setField e.1 e.2.fieldText).decode rest).getField tag = c.getField tag
    rw [ih _ (fun x hx => hnot x (List.mem_cons_of_mem e hx)),
      getField_setField c e.1 e.2.fieldText tag htag]
    simp [hnot e (List.mem_cons_self e rest)]

/-- With keys that differ when letter case is ignored, the entry whose key
names a field ends up in it. -/
theorem decode_present (tag : String) (htag : tag ∈ Config.tags) (doc : Document) :
    ∀ c : Config, (doc.map (fun e => lowerCase e.1.data)).Nodup →
      ∀ e ∈ doc, lowerCase e.1.data = tag →
      (c.decode doc).getField tag = e.2.fieldText := by
  induction doc with
  | nil => intro c _ e hmem; simp at hmem
  | cons x rest ih =>
    intro c hnd e hmem hkey
    simp only [List.map_cons, List.nodup_cons, List.mem_map, not_exists, not_and] at hnd
    show ((c.setField x.1 x.2.fieldText).decode rest).getField tag = e.2.fieldText
    rcases List.mem_cons.mp hmem with h | h
    · subst h
      have hrest : ∀ y ∈ rest, lowerCase y.1.data ≠ tag := by
        intro y hy hyk
        exact hnd.1 y hy (hyk.trans hkey.symm)
      rw [decode_absent tag htag rest _ hrest, getField_setField _ _ _ _ htag]
      simp [hkey]
    · exact ih _ hnd.2 e h hkey

/-- Loading a written file: no error, and the record is the decoding of the
entries written. -/
theorem parseConfig_writeFile (fs : FileSystem) (p : String) (es : List (String × Written))
    (hwf : ∀ e ∈ es, isKey e.1 = true ∧ e.2.isVerbatim = true)
    (hkeys : (es.map (fun e => lowerCase e.1.data)).Nodup)
    (hread : fs.readFile p = Except.ok (String.mk (writeFile es))) :
    parseConfig fs p =
      some ⟨(Config.mk "" "" "" "").decode (es.map (fun e => (e.1, e.2.scalar))),
        none, false⟩ := by
  have hdoc : readDocument (String.mk (writeFile es))
      = some (es.map (fun e => (e.1, e.2.scalar))) := by
    unfold readDocument
    show (match readEntries (splitLines (writeFile es)) with
      | none => none
      | some doc =>
        if (doc.map (fun (e : String × Scalar) => lowerCase e.1.data)).Nodup then some doc
        else none) = _
    rw [readEntries_writeFile es hwf]
    have : (List.map (fun (e : String × Scalar) => lowerCase e.1.data)
        (es.map (fun e => (e.1, e.2.scalar)))).Nodup := by
      simpa [List.map_map, Function.comp] using hkeys
    simp only [this, if_true]
  simp [parseConfig, hread, yamlUnmarshal, hdoc]

/-- C9 as stated fails: a file with all four fields whose timeout is written
`5.0` loads without error, and the timeout field is `5`, not the value
written. -/
theorem parseConfig_stores_number_normalised :
    parseConfig
        ⟨fun _ => Except.ok
          "mysql_address: db:3306\nmysql_timeout: 5.0\nmysql_user_password: root:secret\nhttp_address: localhost:8080\n"⟩
        "config.yml"
      = some ⟨⟨"db:3306", "5", "root:secret", "localhost:8080"⟩, none, false⟩ ∧
    ¬ ((parseConfig
        ⟨fun _ => Except.ok
          "mysql_address: db:3306\nmysql_timeout: 5.0\nmysql_user_password: root:secret\nhttp_address: localhost:8080\n"⟩
        "config.yml").map (fun l => l.c.MySQLTimeout) = some "5.0") := by
  decide

/-- C9 (amended): take a file of one entry per line whose keys differ even when
letter case is ignored and whose values are each written as a string (between
double quotes, or an unquoted word) or as an unquoted decimal integer without
superfluous leading zero.  Loading it returns a nil error; a file with all
four fields gives exactly the record written; each field named by a key of
the file, letter case ignored, equals the value written; and each field no
key names is the empty string. -/
theorem parseConfig_round_trip (fs : FileSystem) (p : String) (es : List (String × Written))
    (hwf : ∀ e ∈ es, isKey e.1 = true ∧ e.2.isVerbatim = true)
    (hkeys : (es.map (fun e => lowerCase e.1.data)).Nodup)
    (hread : fs.readFile p = Except.ok (String.mk (writeFile es))) :
    ∃ c : Config, parseConfig fs p = some ⟨c, none, false⟩ ∧
      (∀ a t u h : Written, ("mysql_address", a) ∈ es → ("mysql_timeout", t) ∈ es →
        ("mysql_user_password", u) ∈ es → ("http_address", h) ∈ es →
        c = { MySQLAddress := a.text, MySQLTimeout := t.text, MySQLUserPassword := u.text,
              HttpAddress := h.text }) ∧
      (∀ k v, (k, v) ∈ es → lowerCase k.data = "mysql_address" → c.MySQLAddress = v.text) ∧
      (∀ k v, (k, v) ∈ es → lowerCase k.data = "mysql_timeout" → c.MySQLTimeout = v.text) ∧
      (∀ k v, (k, v) ∈ es → lowerCase k.data = "mysql_user_password" →
        c.MySQLUserPassword = v.text) ∧
      (∀ k v, (k, v) ∈ es → lowerCase k.data = "http_address" → c.HttpAddress = v.text) ∧
      ((∀ e ∈ es, lowerCase e.1.data ≠ "mysql_address") → c.MySQLAddress = "") ∧
      ((∀ e ∈ es, lowerCase e.1.data ≠ "mysql_timeout") → c.MySQLTimeout = "") ∧
      ((∀ e ∈ es, lowerCase e.1.data ≠ "mysql_user_password") → c.MySQLUserPassword = "") ∧
      ((∀ e ∈ es, lowerCase e.1.data ≠ "http_address") → c.HttpAddress = "") := by
  have hnd : (List.map (fun (e : String × Scalar) => lowerCase e.1.data)
      (es.map (fun e => (e.1, e.2.scalar)))).Nodup := by
    simpa [List.map_map, Function.comp] using hkeys
  have hp : ∀ tag, tag ∈ Config.tags → ∀ k v, (k, v) ∈ es → lowerCase k.data = tag →
      ((Config.mk "" "" "" "").decode (es.map (fun e => (e.1, e.2.scalar)))).getField tag
        = v.text := by
    intro tag htag k v hmem hk
    have hm : (k, v.scalar) ∈ es.map (fun e => (e.1, e.2.scalar)) :=
      List.mem_map.mpr ⟨(k, v), hmem, rfl⟩
    rw [decode_present tag htag _ _ hnd (k, v.scalar) hm hk]
    exact scalar_fieldText v
  have ha : ∀ tag, tag ∈ Config.tags → (∀ e ∈ es, lowerCase e.1.data ≠ tag) →
      ((Config.mk "" "" "" "").decode (es.map (fun e => (e.1, e.2.scalar)))).getField tag
        = (Config.mk "" "" "" "").getField tag := by
    intro tag htag hnot
    apply decode_absent tag htag
    intro x hx
    obtain ⟨e, he, rfl⟩ := List.mem_map.mp hx
    exact hnot e he
  refine ⟨_, parseConfig_writeFile fs p es hwf hkeys hread, ?_⟩
  generalize (Config.mk "" "" "" "").decode (es.map (fun e => (e.1, e.2.scalar))) = c at hp ha
  have h1 : ∀ k v, (k, v) ∈ es → lowerCase k.data = "mysql_address" →
      c.MySQLAddress = v.text := by
    intro k v hm hk
    simpa [Config.getField] using hp "mysql_address" (by decide) k v hm hk
  have h2 : ∀ k v, (k, v) ∈ es → lowerCase k.data = "mysql_timeout" →
      c.MySQLTimeout = v.text := by
    intro k v hm hk
    simpa [Config.getField] using hp "mysql_timeout" (by decide) k v hm hk
  have h3 : ∀ k v, (k, v) ∈ es → lowerCase k.data = "mysql_user_password" →
      c.MySQLUserPassword = v.text := by
    intro k v hm hk
    simpa [Config.getField] using hp "mysql_user_password" (by decide) k v hm hk
  have h4 : ∀ k v, (k, v) ∈ es → lowerCase k.data = "http_address" →
      c.HttpAddress = v.text := by
    intro k v hm hk
    simpa [Config.getField] using hp "http_address" (by decide) k v hm hk
  refine ⟨?_, h1, h2, h3, h4, ?_, ?_, ?_, ?_⟩
  · intro a t u h ma mt mu mh
    have e1 := h1 _ a ma (by decide)
    have e2 := h2 _ t mt (by decide)
    have e3 := h3 _ u mu (by decide)
    have e4 := h4 _ h mh (by decide)
    cases c
    simp_all
  · intro hnot
    simpa [Config.getField] using ha "mysql_address" (by decide) hnot
  · intro hnot
    simpa [Config.getField] using ha "mysql_timeout" (by decide) hnot
  · intro hnot
    simpa [Config.getField] using ha "mysql_user_password" (by decide) hnot
  · intro hnot
    simpa [Config.getField] using ha "http_address" (by decide) hnot

theorem parseConfig_round_trip_witness :
    ∃ c : Config,
      parseConfig
        ⟨fun _ => Except.ok (String.mk (writeFile
          [("mysql_address", ⟨"db:3306", false⟩), ("mysql_timeout", ⟨"5", false⟩),
           ("mysql_user_password", ⟨"root:secret", false⟩),
           ("http_address", ⟨":8080", true⟩)]))⟩
        "config.yml" = some ⟨c, none, false⟩ ∧
      c = { MySQLAddress := "db:3306", MySQLTimeout := "5",
            MySQLUserPassword := "root:secret", HttpAddress := ":8080" } :=
  match parseConfig_round_trip
      ⟨fun _ => Except.ok (String.mk (writeFile
        [("mysql_address", ⟨"db:3306", false⟩), ("mysql_timeout", ⟨"5", false⟩),
         ("mysql_user_password", ⟨"root:secret", false⟩),
         ("http_address", ⟨":8080", true⟩)]))⟩
      "config.yml"
      [("mysql_address", ⟨"db:3306", false⟩), ("mysql_timeout", ⟨"5", false⟩),
       ("mysql_user_password", ⟨"root:secret", false⟩), ("http_address", ⟨":8080", true⟩)]
      (by decide) (by decide) rfl with
  | ⟨c, hc, hall, _⟩ =>
    ⟨c, hc, hall ⟨"db:3306", false⟩ ⟨"5", false⟩ ⟨"root:secret", false⟩ ⟨":8080", true⟩
      (by decide) (by decide) (by decide) (by decide)⟩

end MysqlCheck
